import Mathlib

/-!
Shallow embedding of `server.js` (Autofill-Security-Research).

JavaScript strings are modelled as `List Char`; timestamps (`Date.now()`,
ISO timestamps compared as instants) as `Int` milliseconds; the values
produced by `querystring.parse` as `FormValue` (a string, or an array of
strings when a field name repeats); the JSON record file as
`Option (List Record)` where `none` models a read that throws.
-/

namespace AutofillServer

/-- A value in the parsed request body: `querystring.parse` yields a string,
or an array of strings for a repeated field name. -/
inductive FormValue where
  | str (s : List Char)
  | arr (l : List (List Char))
deriving DecidableEq

/-- The `security` block of the configuration object (server.js lines 13-18). -/
structure SecurityConfig where
  enableRateLimiting : Bool
  maxRequestsPerMinute : Nat
  blockSuspiciousIPs : Bool
  enableCSRF : Bool
deriving DecidableEq

/-- The `logging` block of the configuration object (server.js lines 19-24);
only the fields the modelled code reads. -/
structure LoggingConfig where
  autoCleanup : Bool
  cleanupAfterDays : Nat
deriving DecidableEq

/-- The configuration object handed to the server at startup. -/
structure Config where
  security : SecurityConfig
  logging : LoggingConfig
deriving DecidableEq

/-- The default configuration (server.js lines 12-31), restricted to the
modelled fields. -/
def defaultConfig : Config :=
  { security := { enableRateLimiting := true, maxRequestsPerMinute := 10,
                  blockSuspiciousIPs := true, enableCSRF := true },
    logging := { autoCleanup := true, cleanupAfterDays := 7 } }

/-- `utils.sanitizeInput` on a string (server.js line 60):
`input.replace(/[<>]/g, '').substring(0, 500)` — strip every angle bracket,
then truncate to the first 500 characters. -/
def sanitizeStr (s : List Char) : List Char :=
  (s.filter (fun c => !(c == '<' || c == '>'))).take 500

/-- `utils.sanitizeInput` (server.js lines 58-61): non-string input
(`typeof input !== 'string'`) is returned unchanged. -/
def sanitizeInput : FormValue → FormValue
  | .str s => .str (sanitizeStr s)
  | v => v

/-- Lower-case a string, modelling the `/i` regex flag. -/
def lowerStr (s : List Char) : List Char := s.map Char.toLower

/-- Does `pat` occur as a contiguous substring of `hay`? -/
def containsSub (pat hay : List Char) : Bool :=
  hay.tails.any (fun t => pat.isPrefixOf t)

/-- The three suspicious regexes (server.js lines 64-68), each an
alternation of literal substrings matched case-insensitively. -/
def suspiciousPatterns : List (List (List Char)) :=
  [ ["bot".toList, "crawler".toList, "spider".toList],
    ["sqlmap".toList, "nikto".toList, "metasploit".toList],
    ["<script".toList, "javascript:".toList] ]

/-- `pattern.test(s)` for one alternation pattern: some alternative occurs
in the lower-cased input. -/
def patternTest (pattern : List (List Char)) (s : List Char) : Bool :=
  pattern.any (fun alt => containsSub alt (lowerStr s))

/-- `utils.isSuspiciousRequest` (server.js lines 63-79): for each pattern,
test the user agent, then every string-valued form field; any match flags
the request. -/
def isSuspiciousRequest (userAgent : List Char)
    (formData : List (String × FormValue)) : Bool :=
  suspiciousPatterns.any (fun pattern =>
    patternTest pattern userAgent ||
    formData.any (fun kv =>
      match kv.2 with
      | .str s => patternTest pattern s
      | .arr _ => false))

/-- In-memory rate-limiting state (server.js lines 42-43):
`requestCounts` maps an IP to its stored request instants, and
`blockedIPs` is the blocked-client set. -/
structure RLState where
  requestCounts : List (String × List Int)
  blockedIPs : List String
deriving DecidableEq

/-- `Map.set`: replace the binding for `k`, or append it. -/
def setMap (k : String) (v : α) : List (String × α) → List (String × α)
  | [] => [(k, v)]
  | p :: ps => if p.1 == k then (k, v) :: ps else p :: setMap k v ps

/-- `Set.add` on a list-modelled set: no duplicate is introduced. -/
def insertIP (ip : String) (s : List String) : List String :=
  if s.contains ip then s else ip :: s

/-- `utils.checkRateLimit` (server.js lines 81-100). Returns the admission
decision and the updated state. -/
def checkRateLimit (cfg : Config) (now : Int) (ip : String) (st : RLState) :
    Bool × RLState :=
  if st.blockedIPs.contains ip then (false, st)
  else
    let windowStart := now - 60000
    let requests := (List.lookup ip st.requestCounts).getD []
    let recentRequests := requests.filter (fun time => windowStart < time)
    if cfg.security.maxRequestsPerMinute ≤ recentRequests.length then
      (false,
       if cfg.security.blockSuspiciousIPs then
         { st with blockedIPs := insertIP ip st.blockedIPs }
       else st)
    else
      (true,
       { st with requestCounts :=
           setMap ip (recentRequests ++ [now]) st.requestCounts })

/-- One hexadecimal digit character, as produced by `toString('hex')`. -/
def hexDigit (n : Nat) : Char :=
  "0123456789abcdef".toList.getD n '0'

/-- `Buffer.toString('hex')`: two lower-case hex digits per byte. -/
def hexEncode : List Nat → List Char
  | [] => []
  | b :: bs => hexDigit (b / 16 % 16) :: hexDigit (b % 16) :: hexEncode bs

/-- `csrfToken` validation in the POST /submit handler (server.js line 289):
`!csrfToken || csrfToken.length !== 64` rejects. `undefined` (absent field)
and the empty string are falsy; a non-empty string is checked by character
count; an array (repeated field) is truthy and checked by element count. -/
def csrfTokenValid : Option FormValue → Bool
  | none => false
  | some (.str s) => if s.isEmpty then false else s.length == 64
  | some (.arr l) => l.length == 64

/-- A persisted submission record (`capturedData`, server.js lines 323-334).
`researchMetadata` is a client-supplied JSON blob whose parsing is not
modelled; `autofillUsed` carries the derived
`researchMetadata.autofill_detected || false` flag. -/
structure Record where
  id : List Char
  timestamp : Int
  ip : String
  userAgent : List Char
  formData : List (String × FormValue)
  isSuspicious : Bool
  autofillUsed : Bool
deriving DecidableEq

/-- Response body of the POST /submit handler. -/
inductive SubmitBody where
  | errorBody (msg : String)
  | successBody (submissionId : List Char)
deriving DecidableEq

/-- Outcome of one POST /submit request: HTTP status, body, the resulting
contents of the data file (`none` if it is unreadable), and the resulting
blocked-client set. -/
structure SubmitResult where
  status : Nat
  body : SubmitBody
  store : Option (List Record)
  blockedIPs : List String
deriving DecidableEq

/-- The POST /submit handler after body parsing (server.js lines 283-374).
`randBytes` are the 8 bytes drawn by `crypto.randomBytes(8)`; `storeRead`
is what reading the data file yields (`none` models a throw); `writeOk` is
whether `writeFileSync` succeeds; `autofillDetected` abstracts the parsed
`research_metadata.autofill_detected` flag. On a storage failure the catch
block only logs, and the handler still sends the success response. -/
def handleSubmit (cfg : Config) (ip : String) (userAgent : List Char)
    (formData : List (String × FormValue)) (randBytes : List Nat) (now : Int)
    (blockedIPs : List String) (storeRead : Option (List Record))
    (writeOk : Bool) (autofillDetected : Bool) : SubmitResult :=
  if cfg.security.enableCSRF &&
      !(csrfTokenValid (List.lookup "csrf_token" formData)) then
    { status := 403, body := .errorBody "Security validation failed",
      store := storeRead, blockedIPs := blockedIPs }
  else
    let sanitizedData := formData.map (fun p => (p.1, sanitizeInput p.2))
    let isSuspicious := isSuspiciousRequest userAgent formData
    let blocked := if isSuspicious && cfg.security.blockSuspiciousIPs then
        insertIP ip blockedIPs
      else blockedIPs
    let capturedData : Record :=
      { id := hexEncode randBytes, timestamp := now, ip := ip,
        userAgent := userAgent, formData := sanitizedData,
        isSuspicious := isSuspicious, autofillUsed := autofillDetected }
    let store :=
      match storeRead, writeOk with
      | some existingData, true => some (existingData ++ [capturedData])
      | _, _ => storeRead
    { status := 200, body := .successBody capturedData.id,
      store := store, blockedIPs := blocked }

/-- The GET /view-data handler's status (server.js lines 378-499): 200 on a
successful read, 500 from the catch block when the read throws. -/
def handleViewData : Option (List Record) → Nat
  | some _ => 200
  | none => 500

/-- Result of one run of `utils.cleanupOldData`. -/
structure CleanupResult where
  data : List Record
  removed : Nat
  didWrite : Bool
deriving DecidableEq

/-- `utils.cleanupOldData` (server.js lines 113-133), with the calendar
arithmetic `cutoffDate.setDate(getDate() - cleanupAfterDays)` modelled as
subtracting `cleanupAfterDays` days of milliseconds. Entries strictly newer
than the cutoff are kept; the file is rewritten only when the count
changed. -/
def cleanupOldData (cfg : Config) (now : Int) (data : List Record) :
    CleanupResult :=
  if !cfg.logging.autoCleanup then
    { data := data, removed := 0, didWrite := false }
  else
    let cutoffDate := now - (cfg.logging.cleanupAfterDays : Int) * 86400000
    let filteredData := data.filter (fun entry => cutoffDate < entry.timestamp)
    if filteredData.length ≠ data.length then
      { data := filteredData, removed := data.length - filteredData.length,
        didWrite := true }
    else
      { data := data, removed := 0, didWrite := false }

/-! Concrete inputs used to exercise the model. -/

/-- The default configuration, used for concrete runs. -/
def cfgEx : Config := defaultConfig

/-- An innocuous user agent. -/
def uaEx : List Char := "Mozilla/5.0".toList

/-- A well-formed 64-character CSRF token value. -/
def tok64 : List Char := List.replicate 64 'a'

/-- A well-formed body: valid token plus a username. -/
def fdOk : List (String × FormValue) :=
  [("csrf_token", .str tok64), ("username", .str "Alice".toList)]

/-- A body whose comment field carries an inline-script signature. -/
def fdSus : List (String × FormValue) :=
  [("csrf_token", .str tok64), ("comment", .str "<script>alert(1)".toList)]

/-- A body with a repeated field name, decoded to an array value. -/
def fdArrEx : List (String × FormValue) :=
  [("csrf_token", .str tok64), ("a", .arr ["<x".toList])]

/-- A 501-character value two of whose characters are angle brackets. -/
def longInput : List Char := '<' :: '<' :: List.replicate 499 'a'

/-- Eight zero bytes, one possible draw of `crypto.randomBytes(8)`. -/
def rbZ : List Nat := List.replicate 8 0

/-- A draw differing from `rbZ` in its final byte. -/
def rbOne : List Nat := [0, 0, 0, 0, 0, 0, 0, 1]

/-! Helper lemmas. -/

theorem lookup_setMap_self (k : String) (v : α) (m : List (String × α)) :
    List.lookup k (setMap k v m) = some v := by
  induction m with
  | nil => simp [setMap, List.lookup]
  | cons p ps ih =>
    by_cases h : p.1 = k
    · simp [setMap, h, List.lookup]
    · have hb : (p.1 == k) = false := by simpa using h
      have hb' : (k == p.1) = false := by
        simpa using fun e => h e.symm
      simp [setMap, hb, List.lookup, hb', ih]

theorem subset_insertIP (ip : String) (l : List String) : l ⊆ insertIP ip l := by
  unfold insertIP
  by_cases h : ip ∈ l
  · simp [h]
  · rw [if_neg (by simpa using h)]
    exact List.subset_cons_self ip l

theorem contains_insertIP (ip : String) (l : List String) :
    (insertIP ip l).contains ip = true := by
  unfold insertIP
  by_cases h : ip ∈ l
  · simp [h]
  · simp [h]

theorem checkRateLimit_blocked (cfg : Config) (now : Int) (ip : String)
    (st : RLState) (h : st.blockedIPs.contains ip = true) :
    checkRateLimit cfg now ip st = (false, st) := by
  have hm : ip ∈ st.blockedIPs := by simpa using h
  simp [checkRateLimit, hm]

theorem sanitizeStr_no_lt (s : List Char) : '<' ∉ sanitizeStr s := by
  intro h
  have h2 := List.take_subset 500 _ h
  have h3 := (List.mem_filter.mp h2).2
  simp at h3

theorem sanitizeStr_no_gt (s : List Char) : '>' ∉ sanitizeStr s := by
  intro h
  have h2 := List.take_subset 500 _ h
  have h3 := (List.mem_filter.mp h2).2
  simp at h3

theorem sanitizeStr_length (s : List Char) :
    (sanitizeStr s).length =
      min 500 (s.filter (fun c => !(c == '<' || c == '>'))).length := by
  simp [sanitizeStr, List.length_take]

theorem sanitizeStr_length_le (s : List Char) :
    (sanitizeStr s).length ≤ 500 := by
  rw [sanitizeStr_length]
  exact Nat.min_le_left _ _

theorem filter_idem (p : α → Bool) (l : List α) :
    (l.filter p).filter p = l.filter p := by
  induction l with
  | nil => rfl
  | cons x xs ih =>
    by_cases h : p x = true
    · simp [List.filter_cons, h, ih]
    · simp [List.filter_cons, h, ih]

theorem csrfTokenValid_eq_false_iff (v : Option FormValue) :
    csrfTokenValid v = false ↔
      (v = none ∨ (∃ s, v = some (.str s) ∧ s.length ≠ 64) ∨
       (∃ l, v = some (.arr l) ∧ l.length ≠ 64)) := by
  cases v with
  | none => simp [csrfTokenValid]
  | some fv =>
    cases fv with
    | str s =>
      by_cases h : s = []
      · subst h; simp [csrfTokenValid]
      · simp [csrfTokenValid, h, List.isEmpty_iff]
    | arr l => simp [csrfTokenValid]

theorem hexDigit_injOn (a b : Nat) (ha : a < 16) (hb : b < 16)
    (h : hexDigit a = hexDigit b) : a = b := by
  have key : ∀ x y : Fin 16, hexDigit x.val = hexDigit y.val → x = y := by decide
  have := key ⟨a, ha⟩ ⟨b, hb⟩ h
  exact congrArg Fin.val this

theorem hexEncode_injOn (b1 b2 : List Nat) (h1 : ∀ x ∈ b1, x < 256)
    (h2 : ∀ x ∈ b2, x < 256) (hlen : b1.length = b2.length)
    (heq : hexEncode b1 = hexEncode b2) : b1 = b2 := by
  induction b1 generalizing b2 with
  | nil =>
    cases b2 with
    | nil => rfl
    | cons y ys => simp at hlen
  | cons x xs ih =>
    cases b2 with
    | nil => simp at hlen
    | cons y ys =>
      simp only [hexEncode, List.cons.injEq] at heq
      obtain ⟨hd1, hd2, htl⟩ := heq
      have hx : x < 256 := h1 x (by simp)
      have hy : y < 256 := h2 y (by simp)
      have hxd : x / 16 < 16 := by omega
      have hyd : y / 16 < 16 := by omega
      have e1 : x / 16 = y / 16 := by
        have := hexDigit_injOn (x / 16 % 16) (y / 16 % 16)
          (Nat.mod_lt _ (by norm_num)) (Nat.mod_lt _ (by norm_num)) hd1
        rwa [Nat.mod_eq_of_lt hxd, Nat.mod_eq_of_lt hyd] at this
      have e2 : x % 16 = y % 16 :=
        hexDigit_injOn _ _ (Nat.mod_lt _ (by norm_num))
          (Nat.mod_lt _ (by norm_num)) hd2
      have exy : x = y := by omega
      have hxs : xs = ys :=
        ih ys (fun z hz => h1 z (by simp [hz])) (fun z hz => h2 z (by simp [hz]))
          (by simpa using hlen) htl
      simp [exy, hxs]

/-! Claim theorems. -/

/-- C1: for a client not in the blocked set, `checkRateLimit` counts the
stored instants strictly newer than `now - 60000` ms; at or above the
ceiling it returns false and leaves `requestCounts` untouched (a rejected
request never counts toward a future window); below the ceiling it returns
true and stores the filtered list with the current instant appended. -/
theorem checkRateLimit_window_admission (cfg : Config) (now : Int)
    (ip : String) (st : RLState)
    (hb : st.blockedIPs.contains ip = false) :
    (cfg.security.maxRequestsPerMinute ≤
        (((List.lookup ip st.requestCounts).getD []).filter
          (fun t => now - 60000 < t)).length →
      (checkRateLimit cfg now ip st).1 = false ∧
      (checkRateLimit cfg now ip st).2.requestCounts = st.requestCounts) ∧
    ((((List.lookup ip st.requestCounts).getD []).filter
          (fun t => now - 60000 < t)).length <
        cfg.security.maxRequestsPerMinute →
      (checkRateLimit cfg now ip st).1 = true ∧
      List.lookup ip (checkRateLimit cfg now ip st).2.requestCounts =
        some ((((List.lookup ip st.requestCounts).getD []).filter
          (fun t => now - 60000 < t)) ++ [now])) := by
  have hm : ip ∉ st.blockedIPs := by simpa using hb
  simp only [checkRateLimit]
  rw [if_neg (by simpa using hm)]
  constructor
  · intro hceil
    rw [if_pos hceil]
    refine ⟨rfl, ?_⟩
    by_cases hbs : cfg.security.blockSuspiciousIPs <;> simp [hbs]
  · intro hlt
    rw [if_neg (Nat.not_le.mpr hlt)]
    exact ⟨rfl, lookup_setMap_self _ _ _⟩

/-- Witness for C1: a fresh client with an empty window is admitted and its
instant is recorded. -/
theorem checkRateLimit_window_admission_witness :
    (checkRateLimit cfgEx 0 "2.2.2.2" ⟨[], []⟩).1 = true ∧
    List.lookup "2.2.2.2"
        (checkRateLimit cfgEx 0 "2.2.2.2" ⟨[], []⟩).2.requestCounts =
      some [(0 : Int)] := by
  have h := (checkRateLimit_window_admission cfgEx 0 "2.2.2.2" ⟨[], []⟩
    (by decide)).2 (by decide)
  simpa using h

/-- C2: the blocked-client set is monotonic — neither `checkRateLimit` nor
the submit handler ever removes an address — and once an address is in the
set, `checkRateLimit` rejects it immediately, with no state change. -/
theorem blockedClientSet_monotonic :
    (∀ (cfg : Config) (now : Int) (ip : String) (st : RLState),
      st.blockedIPs ⊆ (checkRateLimit cfg now ip st).2.blockedIPs) ∧
    (∀ (cfg : Config) (ip : String) (ua : List Char)
       (fd : List (String × FormValue)) (rb : List Nat) (now : Int)
       (bl : List String) (sr : Option (List Record)) (w ad : Bool),
      bl ⊆ (handleSubmit cfg ip ua fd rb now bl sr w ad).blockedIPs) ∧
    (∀ (cfg : Config) (now : Int) (ip : String) (st : RLState),
      st.blockedIPs.contains ip = true →
        checkRateLimit cfg now ip st = (false, st)) := by
  refine ⟨?_, ?_, ?_⟩
  · intro cfg now ip st
    simp only [checkRateLimit]
    by_cases hc : ip ∈ st.blockedIPs
    · rw [if_pos (by simpa using hc)]
      exact fun a ha => ha
    · rw [if_neg (by simpa using hc)]
      split
      · by_cases hbs : cfg.security.blockSuspiciousIPs = true
        · simp [hbs, subset_insertIP]
        · simp [hbs]
      · simp
  · intro cfg ip ua fd rb now bl sr w ad
    simp only [handleSubmit]
    split
    · simp
    · by_cases hs : (isSuspiciousRequest ua fd &&
        cfg.security.blockSuspiciousIPs) = true
      · simp [hs, subset_insertIP]
      · simp [hs]
  · intro cfg now ip st h
    exact checkRateLimit_blocked cfg now ip st h

/-- Witness for C2: a blocked client is rejected with its state returned
unchanged. -/
theorem blockedClientSet_monotonic_witness :
    checkRateLimit cfgEx 0 "9.9.9.9" ⟨[], ["9.9.9.9"]⟩ =
      (false, ⟨[], ["9.9.9.9"]⟩) :=
  blockedClientSet_monotonic.2.2 cfgEx 0 "9.9.9.9" ⟨[], ["9.9.9.9"]⟩
    (by decide)

/-- C3: with CSRF enforcement enabled, POST /submit answers 403 with body
`Security validation failed` and an unchanged store exactly when the
presented `csrf_token` is absent or its length differs from 64; every
presented string token of length exactly 64 passes, with no comparison
against any token issued at form render (the handler takes no such
input). -/
theorem csrf_length_only_validation (cfg : Config) (ip : String)
    (ua : List Char) (fd : List (String × FormValue)) (rb : List Nat)
    (now : Int) (bl : List String) (sr : Option (List Record)) (w ad : Bool)
    (hcsrf : cfg.security.enableCSRF = true) :
    ((handleSubmit cfg ip ua fd rb now bl sr w ad).status = 403 ↔
      (List.lookup "csrf_token" fd = none ∨
       (∃ s, List.lookup "csrf_token" fd = some (.str s) ∧ s.length ≠ 64) ∨
       (∃ l, List.lookup "csrf_token" fd = some (.arr l) ∧ l.length ≠ 64))) ∧
    (csrfTokenValid (List.lookup "csrf_token" fd) = false →
      handleSubmit cfg ip ua fd rb now bl sr w ad =
        { status := 403, body := .errorBody "Security validation failed",
          store := sr, blockedIPs := bl }) ∧
    (∀ s : List Char, List.lookup "csrf_token" fd = some (.str s) →
      s.length = 64 →
      (handleSubmit cfg ip ua fd rb now bl sr w ad).status = 200) := by
  refine ⟨?_, ?_, ?_⟩
  · rw [← csrfTokenValid_eq_false_iff]
    by_cases hv : csrfTokenValid (List.lookup "csrf_token" fd) = true
    · simp [handleSubmit, hcsrf, hv]
    · have hv2 : csrfTokenValid (List.lookup "csrf_token" fd) = false := by
        simpa using hv
      simp [handleSubmit, hcsrf, hv2]
  · intro hv
    simp [handleSubmit, hcsrf, hv]
  · intro s hs hlen
    have hne : s ≠ [] := by
      intro e; subst e; simp at hlen
    have hv : csrfTokenValid (List.lookup "csrf_token" fd) = true := by
      rw [hs]
      simp [csrfTokenValid, List.isEmpty_iff, hne, hlen]
    simp [handleSubmit, hcsrf, hv]

/-- Witness for C3: a body with no `csrf_token` is rejected with 403 and an
unchanged store, and a 64-character token is accepted. -/
theorem csrf_length_only_validation_witness :
    (handleSubmit cfgEx "1.1.1.1" uaEx [] rbZ 0 [] (some []) true false =
      { status := 403, body := .errorBody "Security validation failed",
        store := some [], blockedIPs := [] }) ∧
    (handleSubmit cfgEx "1.1.1.1" uaEx fdOk rbZ 0 [] (some []) true
        false).status = 200 := by
  constructor
  · exact (csrf_length_only_validation cfgEx "1.1.1.1" uaEx [] rbZ 0 []
      (some []) true false rfl).2.1 (by decide)
  · exact (csrf_length_only_validation cfgEx "1.1.1.1" uaEx fdOk rbZ 0 []
      (some []) true false rfl).2.2 tok64 (by decide) (by decide)

/-- C4 counterexample: the handler scores the raw body, not the sanitized
one. A field value carrying `<script>` is flagged (and with blocking on,
the client lands in the blocked set) even though no pattern matches the
user agent or any sanitized field value. -/
theorem suspicion_scored_on_raw_fields_cex :
    isSuspiciousRequest uaEx fdSus = true ∧
    isSuspiciousRequest uaEx
      (fdSus.map (fun p => (p.1, sanitizeInput p.2))) = false ∧
    (handleSubmit cfgEx "1.1.1.1" uaEx fdSus rbZ 0 [] (some []) true
        false).blockedIPs = ["1.1.1.1"] := by
  decide

/-- C4 amended: the suspicion flag is computed over the raw submitted field
values (not the sanitized ones) together with the user agent — the request
is flagged iff some fixed pattern matches the user agent or some raw
string-valued field — and the stored record carries exactly that flag. -/
theorem suspicion_scored_on_raw_fields (ua : List Char)
    (fd : List (String × FormValue)) :
    (isSuspiciousRequest ua fd = true ↔
      ∃ pattern ∈ suspiciousPatterns,
        patternTest pattern ua = true ∨
        ∃ kv ∈ fd, ∃ s, kv.2 = FormValue.str s ∧
          patternTest pattern s = true) ∧
    (∀ (rl : Bool) (mr : Nat) (bs : Bool) (lg : LoggingConfig) (ip : String)
       (rb : List Nat) (now : Int) (bl : List String) (old : List Record)
       (ad : Bool),
      (handleSubmit ⟨⟨rl, mr, bs, false⟩, lg⟩ ip ua fd rb now bl (some old)
          true ad).store =
        some (old ++
          [{ id := hexEncode rb, timestamp := now, ip := ip,
             userAgent := ua,
             formData := fd.map (fun p => (p.1, sanitizeInput p.2)),
             isSuspicious := isSuspiciousRequest ua fd,
             autofillUsed := ad }])) := by
  constructor
  · unfold isSuspiciousRequest
    rw [List.any_eq_true]
    constructor
    · rintro ⟨pat, hpat, hp⟩
      refine ⟨pat, hpat, ?_⟩
      simp only [Bool.or_eq_true] at hp
      rcases hp with h | h
      · exact Or.inl h
      · obtain ⟨kv, hkv, hmatch⟩ := List.any_eq_true.mp h
        right
        cases hkv2 : kv.2 with
        | str s =>
          refine ⟨kv, hkv, s, hkv2, ?_⟩
          rwa [hkv2] at hmatch
        | arr l =>
          rw [hkv2] at hmatch
          simp at hmatch
    · rintro ⟨pat, hpat, h⟩
      refine ⟨pat, hpat, ?_⟩
      simp only [Bool.or_eq_true]
      rcases h with h | ⟨kv, hkv, s, hs, hmatch⟩
      · exact Or.inl h
      · refine Or.inr ?_
        refine List.any_eq_true.mpr ⟨kv, hkv, ?_⟩
        rw [hs]
        exact hmatch
  · intro rl mr bs lg ip rb now bl old ad
    simp [handleSubmit]

/-- C5 counterexample: a POST /submit whose storage read-modify-write
throws (`storeRead = none`) still answers 200 with the success body; the
store is left unchanged but the caller is told the submission was
recorded. -/
theorem submit_save_failure_success_cex :
    (handleSubmit cfgEx "1.1.1.1" uaEx fdOk rbZ 0 [] none true
        false).status = 200 ∧
    (handleSubmit cfgEx "1.1.1.1" uaEx fdOk rbZ 0 [] none true
        false).body = SubmitBody.successBody (hexEncode rbZ) ∧
    (handleSubmit cfgEx "1.1.1.1" uaEx fdOk rbZ 0 [] none true
        false).store = none := by
  decide

/-- C5 amended: a read failure in GET /view-data yields a 500 response,
but a POST /submit whose append fails (read throws, or the rewrite fails)
only logs the error: the handler still sends the 200 success body and the
store is unchanged. -/
theorem storage_failure_response (cfg : Config) (ip : String)
    (ua : List Char) (fd : List (String × FormValue)) (rb : List Nat)
    (now : Int) (bl : List String) (old : List Record) (w ad : Bool)
    (hguard : (cfg.security.enableCSRF &&
      !(csrfTokenValid (List.lookup "csrf_token" fd))) = false) :
    handleViewData none = 500 ∧
    (handleSubmit cfg ip ua fd rb now bl none w ad).status = 200 ∧
    (handleSubmit cfg ip ua fd rb now bl none w ad).body =
      .successBody (hexEncode rb) ∧
    (handleSubmit cfg ip ua fd rb now bl none w ad).store = none ∧
    (handleSubmit cfg ip ua fd rb now bl (some old) false ad).store =
      some old := by
  refine ⟨rfl, ?_, ?_, ?_, ?_⟩ <;> simp [handleSubmit, hguard]

/-- Witness for C5 amended: concrete valid-token submission with a failed
read, and one with a failed write. -/
theorem storage_failure_response_witness :
    handleViewData none = 500 ∧
    (handleSubmit cfgEx "1.1.1.1" uaEx fdOk rbZ 0 [] none true
        false).status = 200 ∧
    (handleSubmit cfgEx "1.1.1.1" uaEx fdOk rbZ 0 [] (some []) false
        false).store = some [] := by
  have h := storage_failure_response cfgEx "1.1.1.1" uaEx fdOk rbZ 0 [] []
    true false (by decide)
  exact ⟨h.1, h.2.1, h.2.2.2.2⟩

set_option maxRecDepth 8000

/-- C6 counterexample: a 501-character input whose two angle brackets are
stripped before truncation sanitizes to 499 characters, not exactly 500. -/
theorem sanitize_truncation_cex :
    500 < longInput.length ∧ (sanitizeStr longInput).length = 499 := by
  decide

/-- C6 amended: sanitization strips every angle bracket and then truncates
to at most 500 characters; the result has length `min 500` of the stripped
length, so it is exactly 500 whenever the *stripped* value (rather than
the submitted value) reaches the bound. -/
theorem sanitizeStr_spec (s : List Char) :
    ('<' ∉ sanitizeStr s) ∧ ('>' ∉ sanitizeStr s) ∧
    (sanitizeStr s).length =
      min 500 (s.filter (fun c => !(c == '<' || c == '>'))).length ∧
    (500 ≤ (s.filter (fun c => !(c == '<' || c == '>'))).length →
      (sanitizeStr s).length = 500) := by
  refine ⟨sanitizeStr_no_lt s, sanitizeStr_no_gt s, sanitizeStr_length s, ?_⟩
  intro h
  rw [sanitizeStr_length]
  exact Nat.min_eq_left h

/-- Witness for C6 amended: 500 bracket-free characters sanitize to exactly
500. -/
theorem sanitizeStr_spec_witness :
    (sanitizeStr (List.replicate 500 'b')).length = 500 :=
  (sanitizeStr_spec (List.replicate 500 'b')).2.2.2 (by decide)

/-- C7 counterexample: a repeated field name decodes to an array value,
which `sanitizeInput` passes through unchanged, so a persisted record can
hold a `formFields` value containing `<`. -/
theorem formFields_array_unsanitized_cex :
    (match (handleSubmit cfgEx "1.1.1.1" uaEx fdArrEx rbZ 5 [] (some [])
        true false).store with
     | some [r] => r.formData.any (fun p =>
        match p.2 with
        | FormValue.arr l => l.any (fun s => s.contains '<')
        | FormValue.str s => s.contains '<')
     | _ => false) = true := by
  decide

/-- C7 amended: the persisted record stores the field map with
`sanitizeInput` applied to every value: every *string* value stored under
`formFields` contains no angle bracket and has length at most 500, while
non-string values (arrays from repeated field names) pass through
unchanged. -/
theorem stored_string_fields_sanitized (cfg : Config) (ip : String)
    (ua : List Char) (fd : List (String × FormValue)) (rb : List Nat)
    (now : Int) (bl : List String) (old : List Record) (ad : Bool)
    (hguard : (cfg.security.enableCSRF &&
      !(csrfTokenValid (List.lookup "csrf_token" fd))) = false) :
    (handleSubmit cfg ip ua fd rb now bl (some old) true ad).store =
      some (old ++
        [{ id := hexEncode rb, timestamp := now, ip := ip, userAgent := ua,
           formData := fd.map (fun p => (p.1, sanitizeInput p.2)),
           isSuspicious := isSuspiciousRequest ua fd,
           autofillUsed := ad }]) ∧
    (∀ kv ∈ fd.map (fun p => (p.1, sanitizeInput p.2)), ∀ s,
      kv.2 = FormValue.str s → ('<' ∉ s ∧ '>' ∉ s ∧ s.length ≤ 500)) := by
  constructor
  · simp [handleSubmit, hguard]
  · intro kv hkv s hs
    obtain ⟨p, hp, hpe⟩ := List.mem_map.mp hkv
    have h2 : sanitizeInput p.2 = FormValue.str s := by
      rw [← hs, ← hpe]
    cases hq : p.2 with
    | str s0 =>
      rw [hq] at h2
      simp only [sanitizeInput, FormValue.str.injEq] at h2
      rw [← h2]
      exact ⟨sanitizeStr_no_lt s0, sanitizeStr_no_gt s0,
        sanitizeStr_length_le s0⟩
    | arr l =>
      rw [hq] at h2
      simp [sanitizeInput] at h2

/-- Witness for C7 amended: a concrete valid submission is persisted with
its sanitized field map. -/
theorem stored_string_fields_sanitized_witness :
    (handleSubmit cfgEx "1.1.1.1" uaEx fdOk rbZ 0 [] (some []) true
        false).store =
      some [{ id := hexEncode rbZ, timestamp := 0, ip := "1.1.1.1",
              userAgent := uaEx,
              formData := fdOk.map (fun p => (p.1, sanitizeInput p.2)),
              isSuspicious := isSuspiciousRequest uaEx fdOk,
              autofillUsed := false }] := by
  have h := stored_string_fields_sanitized cfgEx "1.1.1.1" uaEx fdOk rbZ 0
    [] [] false (by decide)
  simpa using h.1

/-- C8: the retention cleanup is idempotent at a fixed instant — a second
immediate run removes zero records and does not rewrite the file — and a
run rewrites the file exactly when cleanup is enabled and the filtered
count differs from the original count. -/
theorem cleanup_idempotent_and_write_condition (cfg : Config) (now : Int)
    (data : List Record) :
    (cleanupOldData cfg now (cleanupOldData cfg now data).data).removed =
      0 ∧
    (cleanupOldData cfg now (cleanupOldData cfg now data).data).didWrite =
      false ∧
    ((cleanupOldData cfg now data).didWrite = true ↔
      (cfg.logging.autoCleanup = true ∧
       (data.filter (fun entry =>
          now - (cfg.logging.cleanupAfterDays : Int) * 86400000 <
            entry.timestamp)).length ≠ data.length)) := by
  by_cases hc : cfg.logging.autoCleanup = true
  · by_cases hl : (data.filter (fun entry =>
        now - (cfg.logging.cleanupAfterDays : Int) * 86400000 <
          entry.timestamp)).length = data.length
    · have hfd : data.filter (fun entry =>
          now - (cfg.logging.cleanupAfterDays : Int) * 86400000 <
            entry.timestamp) = data :=
        (List.filter_sublist data).eq_of_length hl
      simp [cleanupOldData, hc, hfd]
    · have hidem := filter_idem (fun entry : Record =>
        decide (now - (cfg.logging.cleanupAfterDays : Int) * 86400000 <
          entry.timestamp)) data
      simp [cleanupOldData, hc, hl, hidem]
  · simp [cleanupOldData, hc]

/-- C9: a suspicious submission is still fully processed — its record
(flagged suspicious) is appended and the 200 success body returned — while
the client lands in the blocked set, so an admission check performed for
any later request is rejected; the current request was not. -/
theorem suspicious_processed_then_blocked (cfg : Config) (ip : String)
    (ua : List Char) (fd : List (String × FormValue)) (rb : List Nat)
    (now now2 : Int) (counts : List (String × List Int)) (bl : List String)
    (old : List Record) (ad : Bool)
    (hguard : (cfg.security.enableCSRF &&
      !(csrfTokenValid (List.lookup "csrf_token" fd))) = false)
    (hsusp : isSuspiciousRequest ua fd = true)
    (hblock : cfg.security.blockSuspiciousIPs = true) :
    (handleSubmit cfg ip ua fd rb now bl (some old) true ad).status =
      200 ∧
    (handleSubmit cfg ip ua fd rb now bl (some old) true ad).body =
      .successBody (hexEncode rb) ∧
    (handleSubmit cfg ip ua fd rb now bl (some old) true ad).store =
      some (old ++
        [{ id := hexEncode rb, timestamp := now, ip := ip, userAgent := ua,
           formData := fd.map (fun p => (p.1, sanitizeInput p.2)),
           isSuspicious := true, autofillUsed := ad }]) ∧
    (handleSubmit cfg ip ua fd rb now bl (some old) true
        ad).blockedIPs.contains ip = true ∧
    checkRateLimit cfg now2 ip
        ⟨counts,
         (handleSubmit cfg ip ua fd rb now bl (some old) true
           ad).blockedIPs⟩ =
      (false,
       ⟨counts,
        (handleSubmit cfg ip ua fd rb now bl (some old) true
          ad).blockedIPs⟩) := by
  have hbl : (handleSubmit cfg ip ua fd rb now bl (some old) true
      ad).blockedIPs = insertIP ip bl := by
    simp [handleSubmit, hguard, hsusp, hblock]
  refine ⟨?_, ?_, ?_, ?_, ?_⟩
  · simp [handleSubmit, hguard]
  · simp [handleSubmit, hguard]
  · simp [handleSubmit, hguard, hsusp]
  · rw [hbl]
    exact contains_insertIP ip bl
  · refine checkRateLimit_blocked cfg now2 ip _ ?_
    show (handleSubmit cfg ip ua fd rb now bl (some old) true
      ad).blockedIPs.contains ip = true
    rw [hbl]
    exact contains_insertIP ip bl

/-- Witness for C9: a concrete suspicious submission is accepted with 200,
its client is blocked, and the next admission check rejects it. -/
theorem suspicious_processed_then_blocked_witness :
    (handleSubmit cfgEx "1.1.1.1" uaEx fdSus rbZ 0 [] (some []) true
        false).status = 200 ∧
    (handleSubmit cfgEx "1.1.1.1" uaEx fdSus rbZ 0 [] (some []) true
        false).blockedIPs.contains "1.1.1.1" = true ∧
    checkRateLimit cfgEx 1 "1.1.1.1"
        ⟨[],
         (handleSubmit cfgEx "1.1.1.1" uaEx fdSus rbZ 0 [] (some []) true
           false).blockedIPs⟩ =
      (false,
       ⟨[],
        (handleSubmit cfgEx "1.1.1.1" uaEx fdSus rbZ 0 [] (some []) true
          false).blockedIPs⟩) := by
  have h := suspicious_processed_then_blocked cfgEx "1.1.1.1" uaEx fdSus
    rbZ 0 1 [] [] [] false (by decide) (by decide) (by decide)
  exact ⟨h.1, h.2.2.2.1, h.2.2.2.2⟩

/-- C10 counterexample: the id is drawn at random with no check against
existing records, so two submissions whose draws coincide produce two
distinct persisted records with identical ids. -/
theorem duplicate_id_cex :
    (match (handleSubmit cfgEx "1.1.1.1" uaEx fdOk rbZ 1 []
        ((handleSubmit cfgEx "1.1.1.1" uaEx fdOk rbZ 0 [] (some []) true
          false).store) true false).store with
     | some [r1, r2] => r1.id == r2.id && r1.timestamp ≠ r2.timestamp
     | _ => false) = true := by
  decide

/-- C10 amended: ids are the hex encoding of the 8 random bytes, with no
uniqueness check; uniqueness therefore holds only conditionally — whenever
the byte draws of two submissions differ, the resulting ids differ. -/
theorem distinct_draws_distinct_ids (b1 b2 : List Nat)
    (h1 : ∀ x ∈ b1, x < 256) (h2 : ∀ x ∈ b2, x < 256)
    (hlen : b1.length = b2.length) (hne : b1 ≠ b2) :
    hexEncode b1 ≠ hexEncode b2 := by
  intro h
  exact hne (hexEncode_injOn b1 b2 h1 h2 hlen h)

/-- Witness for C10 amended: two concrete draws differing in one byte give
different ids. -/
theorem distinct_draws_distinct_ids_witness :
    hexEncode rbZ ≠ hexEncode rbOne :=
  distinct_draws_distinct_ids rbZ rbOne (by decide) (by decide) (by decide)
    (by decide)

end AutofillServer
